import Mathlib

/-!
Shallow embedding of the two core game engines of the repository
(`TicTacToeGame` and `RockPaperScissorsGame` in
`AIO_begginer_projects_refined.py`), together with theorems settling the
claims about them.  Pure computation is embedded as Lean functions; the
interactive loops are embedded as single-prompt step functions over an
explicit state record, one step per `input(...)` call, with the string the
user typed as the argument of the step.
-/

/-! ## Constants shared by the games (module-level constants in the source) -/

def PLAYER_X : String := "X"

def PLAYER_O : String := "O"

def TIE_RESULT : String := "tie"

/-! ## TicTacToeGame

The board is a function from (row, col) to the string held by the cell; the source
stores a 3-tuple of 3-lists of strings and only ever reads or writes indices
0..2, so only arguments below 3 are meaningful.  `available_moves` is the
list `range(1, 10)` of Python ints, so `List Int` here. -/

def create_board : Nat → Nat → String := fun i j => toString (3 * i + j + 1)

structure TState where
  board : Nat → Nat → String
  available_moves : List Int
  current_player : String

/-- `reset_game`: fresh board, moves 1..9, player X (source lines 60-64). -/
def reset_game : TState :=
  { board := create_board
    available_moves := [1, 2, 3, 4, 5, 6, 7, 8, 9]
    current_player := PLAYER_X }

def setCell (b : Nat → Nat → String) (r c : Nat) (v : String) : Nat → Nat → String :=
  fun i j => if i = r ∧ j = c then v else b i j

/-- The successful branch of `get_user_move` / `get_ai_move`: write the
mark of the current player at `divmod(n - 1, 3)` and remove `n` from the
available moves (source lines 87-89 and 100-102). -/
def place (st : TState) (n : Int) : TState :=
  { st with
    board := setCell st.board ((n - 1) / 3).toNat ((n - 1) % 3).toNat st.current_player
    available_moves := st.available_moves.erase n }

/-- One iteration of the `get_user_move` loop.  `none` stands for input on
which the Python `int(...)` call raises `ValueError`; `some n` for the parsed
integer.  The returned `Bool` tells whether the loop returns (`true`) or
prints an error and re-prompts (`false`), in which case the state is
untouched (source lines 80-94). -/
def get_user_move_step (st : TState) (inp : Option Int) : TState × Bool :=
  match inp with
  | none => (st, false)
  | some n => if n ∈ st.available_moves then (place st n, true) else (st, false)

/-- `check_win` (source lines 104-126): rows, then columns, then the two
diagonals, first complete line winning; else `tie` when no moves remain,
else `None`. -/
def check_win (b : Nat → Nat → String) (avail : List Int) : Option String :=
  if b 0 0 = b 0 1 ∧ b 0 1 = b 0 2 then some (b 0 0)
  else if b 1 0 = b 1 1 ∧ b 1 1 = b 1 2 then some (b 1 0)
  else if b 2 0 = b 2 1 ∧ b 2 1 = b 2 2 then some (b 2 0)
  else if b 0 0 = b 1 0 ∧ b 1 0 = b 2 0 then some (b 0 0)
  else if b 0 1 = b 1 1 ∧ b 1 1 = b 2 1 then some (b 0 1)
  else if b 0 2 = b 1 2 ∧ b 1 2 = b 2 2 then some (b 0 2)
  else if b 0 0 = b 1 1 ∧ b 1 1 = b 2 2 then some (b 0 0)
  else if b 0 2 = b 1 1 ∧ b 1 1 = b 2 0 then some (b 0 2)
  else if avail = [] then some TIE_RESULT
  else none

/-- `switch_player` (source lines 128-130). -/
def switch_player (p : String) : String :=
  if p = PLAYER_X then PLAYER_O else PLAYER_X

/-- One completed placement as the `play` loop performs it: place the move,
then run `check_win`; only when the result is falsy (`None`) is the player
switched — a deciding placement (win or tie) skips `switch_player`, because
the loop breaks or resets instead (source lines 147-166 and 170-189; the
automated move uses the identical placement code). -/
def make_move (st : TState) (n : Int) : TState :=
  if check_win (place st n).board (place st n).available_moves = none then
    { place st n with current_player := switch_player (place st n).current_player }
  else place st n

/-- A legal game step: some available move is played. -/
def Step (st st2 : TState) : Prop :=
  ∃ n, n ∈ st.available_moves ∧ st2 = make_move st n

/-- States reachable from a fresh board by legal placements. -/
def Reachable (st : TState) : Prop :=
  Relation.ReflTransGen Step reset_game st

def apply_moves (st : TState) : List Int → TState
  | [] => st
  | n :: ms => apply_moves (make_move st n) ms

/-- Every placement of the run leaves the game undecided (`check_win`
returns `None` after it), which is how the `play` loop reaches the next
placement of the same game. -/
def AllUndecided (st : TState) : List Int → Prop
  | [] => True
  | n :: ms =>
    check_win (place st n).board (place st n).available_moves = none ∧
    AllUndecided (make_move st n) ms

/-! Specification-side description of `check_win`, following the words of
the spec: the 8 lines in the fixed order rows, columns, diagonals; the first
complete one wins; else tie exactly when no moves remain. -/

def linesList : List (List (Nat × Nat)) :=
  [[(0,0),(0,1),(0,2)], [(1,0),(1,1),(1,2)], [(2,0),(2,1),(2,2)],
   [(0,0),(1,0),(2,0)], [(0,1),(1,1),(2,1)], [(0,2),(1,2),(2,2)],
   [(0,0),(1,1),(2,2)], [(0,2),(1,1),(2,0)]]

def lineDone (b : Nat → Nat → String) : List (Nat × Nat) → Bool
  | [p, q, r] => (b p.1 p.2 == b q.1 q.2) && (b q.1 q.2 == b r.1 r.2)
  | _ => false

def lineVal (b : Nat → Nat → String) (l : List (Nat × Nat)) : String :=
  b (l.headD (0, 0)).1 (l.headD (0, 0)).2

/-- Written from the words of the spec (not from the source), to be compared
with `check_win`: return the value of the first complete line in the fixed
order, else tie exactly when `availableMoves` is empty, else undecided. -/
def check_win_spec (b : Nat → Nat → String) (avail : List Int) : Option String :=
  match linesList.find? (lineDone b) with
  | some l => some (lineVal b l)
  | none => if avail = [] then some TIE_RESULT else none

/-- Every in-range cell holds a mark or its own position label. -/
def CellInv (st : TState) : Prop :=
  ∀ i j, i < 3 → j < 3 →
    st.board i j = PLAYER_X ∨ st.board i j = PLAYER_O ∨ st.board i j = create_board i j

/-! ## RockPaperScissorsGame

The engine is a web of mutually recursive methods, each of which does all
its observable work (state mutation, choosing where control goes next)
before any recursive call, and nothing after it; so it is embedded as a
flat machine:  a `Phase` (which prompt is showing), an `MState` (the
instance attributes), and one step function per prompt, taking the raw
string typed at that prompt. `Phase.exitGame` is control returning out of
the engine to the external launcher. -/

/-- Model of the Python `str.lower()` method on the ASCII inputs involved: lowercase every
character.  (Stated over the character list so the kernel can evaluate it.) -/
def pyLower (s : String) : String := String.mk (s.data.map Char.toLower)

/-- Model of the Python `str.strip()` method: drop whitespace from both ends. -/
def pyStrip (s : String) : String :=
  String.mk (((s.data.dropWhile Char.isWhitespace).reverse.dropWhile Char.isWhitespace).reverse)

def ROCK : String := "rock"

def PAPER : String := "paper"

def SCISSORS : String := "scissors"

def menu_choices : List String := ["menu", "main menu"]

def valid_choices : List (String × String) :=
  [("1", ROCK), ("rock", ROCK), ("r", ROCK),
   ("2", PAPER), ("paper", PAPER), ("p", PAPER),
   ("3", SCISSORS), ("scissors", SCISSORS), ("s", SCISSORS)]

structure MState where
  require_names : Bool
  two_player_mode : Bool
  has_names : Bool
  player1_name : String
  player2_name : String
  score1 : Nat
  score2 : Nat
deriving DecidableEq

/-- `reset_settings` (source lines 208-214).  Note it touches the five
settings/identity attributes only: the scores are not among them. -/
def reset_settings (s : MState) : MState :=
  { s with require_names := true, two_player_mode := false, has_names := false,
           player1_name := "Player 1", player2_name := "The Bot" }

/-- The state `__init__` builds: `reset_settings` plus zero scores. -/
def initMState : MState :=
  { require_names := true, two_player_mode := false, has_names := false,
    player1_name := "Player 1", player2_name := "The Bot",
    score1 := 0, score2 := 0 }

inductive Phase where
  | mainMenu
  | settings
  | nameP1
  | nameP2
  | choiceP1
  | choiceP2 (c1 : String)
  | postRound
  | exitGame
deriving DecidableEq

inductive RoundOutcome where
  | tie
  | p1Wins
  | p2Wins
deriving DecidableEq

def beats_pairs : List (String × String) :=
  [(ROCK, SCISSORS), (SCISSORS, PAPER), (PAPER, ROCK)]

/-- The winner-determination chain of `play_round` (source lines 313-322). -/
def round_outcome (c1 c2 : String) : RoundOutcome :=
  if c1 = c2 then .tie
  else if (c1, c2) ∈ beats_pairs then .p1Wins
  else .p2Wins

/-- Score effect of the same chain: the entry of the winner is incremented by
one, ties change nothing (source lines 319 and 322). -/
def play_round_resolve (s : MState) (c1 c2 : String) : MState :=
  match round_outcome c1 c2 with
  | .tie => s
  | .p1Wins => { s with score1 := s.score1 + 1 }
  | .p2Wins => { s with score2 := s.score2 + 1 }

/-- `pre_game` (source lines 263-270) has no prompt of its own: it decides
whether name acquisition or the round starts. -/
def pre_game_phase (s : MState) : Phase :=
  if s.require_names && !s.has_names then Phase.nameP1 else Phase.choiceP1

/-- The `main_menu` prompt (source lines 216-240). -/
def main_menu_step (s : MState) (raw : String) : Phase × MState :=
  if pyStrip (pyLower raw) ∈ ["1", "new game", "n"] then (pre_game_phase s, s)
  else if pyStrip (pyLower raw) ∈ ["2", "settings", "s"] then (Phase.settings, s)
  else if pyStrip (pyLower raw) ∈ ["3", "back to main menu", "b"] ++ menu_choices then (Phase.exitGame, s)
  else (Phase.mainMenu, s)

/-- First prompt of `get_player_names` (source lines 245-248): the typed
name is stored before the menu-token check, and control then either goes to
the main menu, to the name prompt of player 2, or (one-player mode) on towards
the round with `has_names` set. -/
def get_player_names_step1 (s : MState) (raw : String) : Phase × MState :=
  if pyLower (pyStrip raw) ∈ menu_choices then (Phase.mainMenu, { s with player1_name := pyStrip raw })
  else if s.two_player_mode then (Phase.nameP2, { s with player1_name := pyStrip raw })
  else (Phase.choiceP1, { s with player1_name := pyStrip raw, has_names := true })

/-- Second prompt of `get_player_names` (source lines 250-254, 259-261). -/
def get_player_names_step2 (s : MState) (raw : String) : Phase × MState :=
  if pyLower (pyStrip raw) ∈ menu_choices then (Phase.mainMenu, { s with player2_name := pyStrip raw })
  else (Phase.choiceP1, { s with player2_name := pyStrip raw, has_names := true })

inductive ChoiceInputResult where
  | chosen (c : String)
  | toMenu
  | reprompt
deriving DecidableEq

/-- One iteration of the `get_player_choice` loop (source lines 272-287):
a key of the alias table normalises to rock/paper/scissors; the menu token
goes to the main menu; anything else re-prompts. -/
def get_player_choice_step (raw : String) : ChoiceInputResult :=
  match valid_choices.lookup (pyStrip (pyLower raw)) with
  | some v => .chosen v
  | none => if pyStrip (pyLower raw) ∈ menu_choices then .toMenu else .reprompt

/-- The prompt of participant 1 in `play_round` (source lines 293-296). -/
def play_round_step1 (s : MState) (raw : String) : Phase × MState :=
  match get_player_choice_step raw with
  | .chosen c => (Phase.choiceP2 c, s)
  | .toMenu => (Phase.mainMenu, s)
  | .reprompt => (Phase.choiceP1, s)

/-- The prompt of participant 2 in `play_round`, two-player mode (source lines
300-303), resolving the round once both choices are in. -/
def play_round_step2 (s : MState) (c1 raw : String) : Phase × MState :=
  match get_player_choice_step raw with
  | .chosen c2 => (Phase.postRound, play_round_resolve s c1 c2)
  | .toMenu => (Phase.mainMenu, s)
  | .reprompt => (Phase.choiceP2 c1, s)

/-- The `after_game_menu` prompt (source lines 333-354). -/
def after_game_step (s : MState) (raw : String) : Phase × MState :=
  if pyStrip (pyLower raw) ∈ ["1", "play again", "p"] then (Phase.choiceP1, s)
  else if pyStrip (pyLower raw) ∈ ["2", "rock-paper-scissors menu", "r"] then (Phase.mainMenu, s)
  else if pyStrip (pyLower raw) ∈ ["3", "back to main menu", "b"] ++ menu_choices then (Phase.exitGame, s)
  else (Phase.postRound, s)

/-- The `settings_menu` prompt (source lines 356-384). -/
def settings_step (s : MState) (raw : String) : Phase × MState :=
  if pyStrip (pyLower raw) ∈ ["1", "require names", "n"] then
    (Phase.settings, { s with require_names := !s.require_names, has_names := false })
  else if pyStrip (pyLower raw) ∈ ["2", "two player mode", "t"] then
    (Phase.settings,
     { s with two_player_mode := !s.two_player_mode,
              player2_name :=
                if !s.two_player_mode && !s.require_names then "Player 2" else "The Bot" })
  else if pyStrip (pyLower raw) ∈ ["3", "reset to default settings", "d"] then
    (Phase.settings, reset_settings s)
  else if pyStrip (pyLower raw) ∈ ["4", "back to rock-paper-scissors menu", "b"] then
    (Phase.mainMenu, s)
  else (Phase.settings, s)

/-! ## Theorems -/

/-! ### Grid placement (claim C3) -/

/-- Claim C3: for a position `n` in `availableMoves` (with 1 ≤ n ≤ 9),
accepting `n` writes the mark of the current player at row `(n-1) div 3`, column
`(n-1) mod 3` (both in range), removes `n` from `availableMoves` — whose
size decreases by exactly 1 — changes no other cell and not the current
player; non-integer or unavailable input leaves the board, the available
moves and the current player entirely unchanged (the loop re-prompts). -/
theorem get_user_move_correct (st : TState) (n : Int)
    (hmem : n ∈ st.available_moves) (hlo : 1 ≤ n) (hhi : n ≤ 9) :
    (get_user_move_step st (some n)).2 = true ∧
    ((n - 1) / 3).toNat < 3 ∧
    ((n - 1) % 3).toNat < 3 ∧
    (get_user_move_step st (some n)).1.board ((n - 1) / 3).toNat ((n - 1) % 3).toNat
      = st.current_player ∧
    (∀ i j, ¬(i = ((n - 1) / 3).toNat ∧ j = ((n - 1) % 3).toNat) →
      (get_user_move_step st (some n)).1.board i j = st.board i j) ∧
    (get_user_move_step st (some n)).1.available_moves = st.available_moves.erase n ∧
    (get_user_move_step st (some n)).1.available_moves.length + 1
      = st.available_moves.length ∧
    (st.available_moves.Nodup → n ∉ (get_user_move_step st (some n)).1.available_moves) ∧
    (get_user_move_step st (some n)).1.current_player = st.current_player ∧
    (∀ m : Int, m ∉ st.available_moves → get_user_move_step st (some m) = (st, false)) ∧
    get_user_move_step st none = (st, false) := by
  have hstep : get_user_move_step st (some n) = (place st n, true) := by
    simp only [get_user_move_step]
    rw [if_pos hmem]
  have hlen : 0 < st.available_moves.length := List.length_pos_of_mem hmem
  have herase := List.length_erase_of_mem hmem
  refine ⟨by rw [hstep], by omega, by omega, ?_, ?_, by rw [hstep]; rfl, ?_, ?_,
    by rw [hstep]; rfl, ?_, rfl⟩
  · rw [hstep]
    simp [place, setCell]
  · intro i j hij
    rw [hstep]
    simp only [place, setCell]
    rw [if_neg hij]
  · rw [hstep]
    simp only [place]
    omega
  · intro hd
    rw [hstep]
    intro hin
    simp only [place] at hin
    exact ((List.Nodup.mem_erase_iff hd).1 hin).1 rfl
  · intro m hm
    simp only [get_user_move_step]
    rw [if_neg hm]

/-- Witness for claim C3: on the fresh board, accepting position 5 writes X
into the centre cell (row 1, column 1). -/
theorem get_user_move_correct_witness :
    (get_user_move_step reset_game (some 5)).1.board
        (((5 : Int) - 1) / 3).toNat (((5 : Int) - 1) % 3).toNat
      = reset_game.current_player ∧ (5 : Int) ∈ reset_game.available_moves :=
  ⟨(get_user_move_correct reset_game 5 (by decide) (by decide) (by decide)).2.2.2.1,
   by decide⟩

/-! ### Settings menu: the two toggles (claims C7, C8) -/

lemma settings_step_one (s : MState) :
    settings_step s "1" =
      (Phase.settings, { s with require_names := !s.require_names, has_names := false }) := by
  unfold settings_step
  rw [if_pos (by decide)]

lemma settings_step_require_names (s : MState) :
    settings_step s "require names" =
      (Phase.settings, { s with require_names := !s.require_names, has_names := false }) := by
  unfold settings_step
  rw [if_pos (by decide)]

lemma settings_step_n (s : MState) :
    settings_step s "n" =
      (Phase.settings, { s with require_names := !s.require_names, has_names := false }) := by
  unfold settings_step
  rw [if_pos (by decide)]

lemma settings_step_two (s : MState) :
    settings_step s "2" =
      (Phase.settings,
       { s with two_player_mode := !s.two_player_mode,
                player2_name :=
                  if !s.two_player_mode && !s.require_names then "Player 2" else "The Bot" }) := by
  unfold settings_step
  rw [if_neg (by decide), if_pos (by decide)]

/-- Claim C7: in the settings menu, toggling `twoPlayerMode` sets participant
2 gets the default display name to "Player 2" exactly when, after the toggle,
`twoPlayerMode` is true and `requireNames` is false, and to "The Bot" in
every other combination of the two flags; the name depends jointly on both
flags. -/
theorem settings_two_player_toggle_name_rule (s : MState) :
    (settings_step s "2").2.two_player_mode = !s.two_player_mode ∧
    (settings_step s "2").2.require_names = s.require_names ∧
    ((settings_step s "2").2.player2_name = "Player 2" ↔
      ((settings_step s "2").2.two_player_mode = true ∧
       (settings_step s "2").2.require_names = false)) ∧
    ((settings_step s "2").2.player2_name = "The Bot" ↔
      ¬((settings_step s "2").2.two_player_mode = true ∧
        (settings_step s "2").2.require_names = false)) := by
  rw [settings_step_two]
  rcases s with ⟨rn, tp, hn, p1, p2, a, b⟩
  cases rn <;> cases tp <;> simp

/-- Claim C8: toggling `requireNames` via the settings menu (any of its
three input aliases) always sets `hasNames` to false and flips
`requireNames`, regardless of the prior values of both flags. -/
theorem settings_require_names_toggle_clears_has_names (s : MState) :
    (settings_step s "1").2.has_names = false ∧
    (settings_step s "1").2.require_names = !s.require_names ∧
    (settings_step s "require names").2.has_names = false ∧
    (settings_step s "n").2.has_names = false ∧
    (settings_step s "1").1 = Phase.settings := by
  rw [settings_step_one, settings_step_require_names, settings_step_n]
  exact ⟨rfl, rfl, rfl, rfl, rfl⟩

/-! ### Scores (claim C5) -/

/-- Counterexample to claim C5: `reset_settings` — the explicit
settings-reset operation — does not reset the scores to 0; starting from
scores (3, 1) it leaves them at (3, 1). -/
theorem reset_settings_does_not_reset_scores :
    (reset_settings { initMState with score1 := 3, score2 := 1 }).score1 = 3 ∧
    (reset_settings { initMState with score1 := 3, score2 := 1 }).score2 = 1 ∧
    (3 : Nat) ≠ 0 := by
  exact ⟨rfl, rfl, by decide⟩

/-- Claim C5 (amended): each score is a `Nat` (hence non-negative),
incremented by exactly 1 and only to the round winner by the round
resolver, and no other engine operation — including the explicit
settings-reset — changes either score; the scores persist for the life of
the engine instance. -/
theorem scores_changed_only_by_resolver (s : MState) (c1 c2 raw : String) :
    (play_round_resolve s c1 c2).score1 =
      s.score1 + (if round_outcome c1 c2 = RoundOutcome.p1Wins then 1 else 0) ∧
    (play_round_resolve s c1 c2).score2 =
      s.score2 + (if round_outcome c1 c2 = RoundOutcome.p2Wins then 1 else 0) ∧
    (reset_settings s).score1 = s.score1 ∧
    (reset_settings s).score2 = s.score2 ∧
    (settings_step s raw).2.score1 = s.score1 ∧
    (settings_step s raw).2.score2 = s.score2 ∧
    (main_menu_step s raw).2.score1 = s.score1 ∧
    (main_menu_step s raw).2.score2 = s.score2 ∧
    (after_game_step s raw).2.score1 = s.score1 ∧
    (after_game_step s raw).2.score2 = s.score2 ∧
    (get_player_names_step1 s raw).2.score1 = s.score1 ∧
    (get_player_names_step1 s raw).2.score2 = s.score2 ∧
    (get_player_names_step2 s raw).2.score1 = s.score1 ∧
    (get_player_names_step2 s raw).2.score2 = s.score2 ∧
    (play_round_step1 s raw).2.score1 = s.score1 ∧
    (play_round_step1 s raw).2.score2 = s.score2 := by
  refine ⟨?_, ?_, rfl, rfl, ?_, ?_, ?_, ?_, ?_, ?_, ?_, ?_, ?_, ?_, ?_, ?_⟩
  · unfold play_round_resolve
    rcases hr : round_outcome c1 c2 <;> simp [hr]
  · unfold play_round_resolve
    rcases hr : round_outcome c1 c2 <;> simp [hr]
  all_goals first
    | (unfold settings_step; split_ifs <;> rfl)
    | (unfold main_menu_step; split_ifs <;> rfl)
    | (unfold after_game_step; split_ifs <;> rfl)
    | (unfold get_player_names_step1; split_ifs <;> rfl)
    | (unfold get_player_names_step2; split_ifs <;> rfl)
    | (unfold play_round_step1; rcases hc : get_player_choice_step raw <;> simp [hc])

/-! ### Post-round menu (claim C6) -/

/-- Counterexample to claim C6: in `after_game_menu`, option 3 ("back to
main menu") does not transition to the main menu of the engine — it exits
the engine back to the external launcher. -/
theorem after_game_menu_option3_exits :
    (after_game_step initMState "3").1 = Phase.exitGame ∧
    Phase.exitGame ≠ Phase.mainMenu := by
  decide

/-- Claim C6 (amended): in the post-round menu, option 1 (aliases
"1"/"play again"/"p") starts a new round, option 2
("2"/"rock-paper-scissors menu"/"r") goes to the main menu of the engine,
and option 3 ("3"/"back to main menu"/"b", or the menu token) exits
the engine to the launcher; any unrecognized input re-displays the same
menu; none of these inputs changes any state. -/
theorem after_game_menu_behaviour (s : MState) :
    after_game_step s "1" = (Phase.choiceP1, s) ∧
    after_game_step s "play again" = (Phase.choiceP1, s) ∧
    after_game_step s "p" = (Phase.choiceP1, s) ∧
    after_game_step s "2" = (Phase.mainMenu, s) ∧
    after_game_step s "rock-paper-scissors menu" = (Phase.mainMenu, s) ∧
    after_game_step s "r" = (Phase.mainMenu, s) ∧
    after_game_step s "3" = (Phase.exitGame, s) ∧
    after_game_step s "back to main menu" = (Phase.exitGame, s) ∧
    after_game_step s "b" = (Phase.exitGame, s) ∧
    (∀ raw, pyStrip (pyLower raw) ∉
        (["1", "play again", "p", "2", "rock-paper-scissors menu", "r",
          "3", "back to main menu", "b"] ++ menu_choices : List String) →
      after_game_step s raw = (Phase.postRound, s)) := by
  refine ⟨?_, ?_, ?_, ?_, ?_, ?_, ?_, ?_, ?_, ?_⟩
  · unfold after_game_step; rw [if_pos (by decide)]
  · unfold after_game_step; rw [if_pos (by decide)]
  · unfold after_game_step; rw [if_pos (by decide)]
  · unfold after_game_step; rw [if_neg (by decide), if_pos (by decide)]
  · unfold after_game_step; rw [if_neg (by decide), if_pos (by decide)]
  · unfold after_game_step; rw [if_neg (by decide), if_pos (by decide)]
  · unfold after_game_step; rw [if_neg (by decide), if_neg (by decide), if_pos (by decide)]
  · unfold after_game_step; rw [if_neg (by decide), if_neg (by decide), if_pos (by decide)]
  · unfold after_game_step; rw [if_neg (by decide), if_neg (by decide), if_pos (by decide)]
  · intro raw h
    simp only [List.mem_append, List.mem_cons, List.mem_singleton, menu_choices,
      not_or, List.not_mem_nil] at h
    unfold after_game_step
    rw [if_neg (by simp only [List.mem_cons, List.mem_singleton, not_or,
          List.not_mem_nil]; tauto),
        if_neg (by simp only [List.mem_cons, List.mem_singleton, not_or,
          List.not_mem_nil]; tauto),
        if_neg (by simp only [List.mem_append, List.mem_cons, List.mem_singleton,
          menu_choices, not_or, List.not_mem_nil]; tauto)]

/-- Witness for the unrecognized-input branch of the amended claim C6. -/
theorem after_game_menu_behaviour_witness :
    after_game_step initMState "hello" = (Phase.postRound, initMState) :=
  (after_game_menu_behaviour initMState).2.2.2.2.2.2.2.2.2 "hello" (by decide)

/-! ### Menu-escape token (claim C4) -/

/-- Counterexample to claim C4: the settings-menu prompt does not accept
the reserved menu-escape token — typing "menu" there is treated as an
invalid option and re-displays the settings menu, not the main menu. -/
theorem settings_menu_rejects_menu_token :
    (settings_step initMState "menu").1 = Phase.settings ∧
    Phase.settings ≠ Phase.mainMenu := by
  decide

/-- Claim C4 (amended): the menu-escape token ("menu" or "main menu") is
honoured at the name-acquisition and choice-entry prompts, which transition
to MainMenu with no score change and the round discarded (although the name
field just typed retains the token text); at the main-menu and post-round
prompts the token is grouped with option 3 (back to main menu) and exits the engine
to the launcher; the settings prompt does not accept the token at all and
re-displays the settings menu with no state change. -/
theorem menu_token_behaviour (s : MState) (raw : String) (h : raw ∈ menu_choices) :
    get_player_names_step1 s raw = (Phase.mainMenu, { s with player1_name := pyStrip raw }) ∧
    get_player_names_step2 s raw = (Phase.mainMenu, { s with player2_name := pyStrip raw }) ∧
    get_player_choice_step raw = ChoiceInputResult.toMenu ∧
    play_round_step1 s raw = (Phase.mainMenu, s) ∧
    (∀ c1, play_round_step2 s c1 raw = (Phase.mainMenu, s)) ∧
    main_menu_step s raw = (Phase.exitGame, s) ∧
    after_game_step s raw = (Phase.exitGame, s) ∧
    settings_step s raw = (Phase.settings, s) := by
  have hr : raw = "menu" ∨ raw = "main menu" := by
    simpa [menu_choices] using h
  have hchoice : get_player_choice_step raw = ChoiceInputResult.toMenu := by
    rcases hr with rfl | rfl <;> decide
  refine ⟨?_, ?_, hchoice, ?_, ?_, ?_, ?_, ?_⟩
  · rcases hr with rfl | rfl <;> (unfold get_player_names_step1; rw [if_pos (by decide)])
  · rcases hr with rfl | rfl <;> (unfold get_player_names_step2; rw [if_pos (by decide)])
  · unfold play_round_step1; rw [hchoice]
  · intro c1; unfold play_round_step2; rw [hchoice]
  · rcases hr with rfl | rfl <;>
      (unfold main_menu_step; rw [if_neg (by decide), if_neg (by decide), if_pos (by decide)])
  · rcases hr with rfl | rfl <;>
      (unfold after_game_step; rw [if_neg (by decide), if_neg (by decide), if_pos (by decide)])
  · rcases hr with rfl | rfl <;>
      (unfold settings_step;
       rw [if_neg (by decide), if_neg (by decide), if_neg (by decide), if_neg (by decide)])

/-- Witness for the amended claim C4, at the concrete token "menu". -/
theorem menu_token_behaviour_witness :
    play_round_step1 initMState "menu" = (Phase.mainMenu, initMState) :=
  (menu_token_behaviour initMState "menu" (by decide)).2.2.2.1

/-! ### Round resolution (claim C2) -/

/-- Claim C2: for every pair of choices from {rock, paper, scissors}²,
exactly one of tie / participant-1-wins / participant-2-wins holds — tie
iff the choices are equal, participant 1 wins iff the pair is in the fixed
beats-table, participant 2 wins otherwise; the score of the winner increments by
exactly 1 and the other is unchanged (a tie changes neither); and resolving
the same pair again from the resulting state yields the identical outcome
and the identical score delta. -/
theorem resolve_round_correct (s : MState) (c1 c2 : String)
    (h1 : c1 ∈ [ROCK, PAPER, SCISSORS]) (h2 : c2 ∈ [ROCK, PAPER, SCISSORS]) :
    (round_outcome c1 c2 = RoundOutcome.tie ∨
     round_outcome c1 c2 = RoundOutcome.p1Wins ∨
     round_outcome c1 c2 = RoundOutcome.p2Wins) ∧
    (round_outcome c1 c2 = RoundOutcome.tie ↔ c1 = c2) ∧
    (round_outcome c1 c2 = RoundOutcome.p1Wins ↔ (c1, c2) ∈ beats_pairs) ∧
    (round_outcome c1 c2 = RoundOutcome.p2Wins ↔ (c1 ≠ c2 ∧ (c1, c2) ∉ beats_pairs)) ∧
    (play_round_resolve s c1 c2).score1 =
      s.score1 + (if round_outcome c1 c2 = RoundOutcome.p1Wins then 1 else 0) ∧
    (play_round_resolve s c1 c2).score2 =
      s.score2 + (if round_outcome c1 c2 = RoundOutcome.p2Wins then 1 else 0) ∧
    (play_round_resolve (play_round_resolve s c1 c2) c1 c2).score1 =
      (play_round_resolve s c1 c2).score1 +
        (if round_outcome c1 c2 = RoundOutcome.p1Wins then 1 else 0) ∧
    (play_round_resolve (play_round_resolve s c1 c2) c1 c2).score2 =
      (play_round_resolve s c1 c2).score2 +
        (if round_outcome c1 c2 = RoundOutcome.p2Wins then 1 else 0) := by
  fin_cases h1 <;> fin_cases h2 <;>
    simp [round_outcome, play_round_resolve, beats_pairs, ROCK, PAPER, SCISSORS]

/-- Witness for claim C2 at the concrete pair (rock, scissors): participant
1 wins and only the score of participant 1 moves. -/
theorem resolve_round_correct_witness :
    (play_round_resolve initMState ROCK SCISSORS).score1 =
      initMState.score1 + (if round_outcome ROCK SCISSORS = RoundOutcome.p1Wins then 1 else 0) :=
  (resolve_round_correct initMState ROCK SCISSORS (by decide) (by decide)).2.2.2.2.1

/-! ### Turn switching and alternation (claim C9) -/

lemma switch_player_mem (p : String) :
    switch_player p = PLAYER_X ∨ switch_player p = PLAYER_O := by
  unfold switch_player
  split_ifs <;> simp

lemma make_move_board (st : TState) (n : Int) :
    (make_move st n).board = (place st n).board := by
  unfold make_move
  split_ifs <;> rfl

lemma make_move_current_undecided (st : TState) (n : Int)
    (h : check_win (place st n).board (place st n).available_moves = none) :
    (make_move st n).current_player = switch_player st.current_player := by
  unfold make_move
  rw [if_pos h]
  rfl

lemma make_move_current_decided (st : TState) (n : Int)
    (h : check_win (place st n).board (place st n).available_moves ≠ none) :
    (make_move st n).current_player = st.current_player := by
  unfold make_move
  rw [if_neg h]
  rfl

lemma make_move_current_cases (st : TState) (n : Int) :
    (make_move st n).current_player = switch_player st.current_player ∨
    (make_move st n).current_player = st.current_player := by
  unfold make_move
  split_ifs
  · exact Or.inl rfl
  · exact Or.inr rfl

lemma reachable_current_mem (st : TState) (h : Reachable st) :
    st.current_player = PLAYER_X ∨ st.current_player = PLAYER_O := by
  induction h with
  | refl => exact Or.inl rfl
  | tail hsteps hstep ih =>
    obtain ⟨n, hn, rfl⟩ := hstep
    rcases make_move_current_cases _ n with hc | hc
    · rw [hc]
      exact switch_player_mem _
    · rw [hc]
      exact ih

lemma switch_player_switch_player (p : String)
    (hp : p = PLAYER_X ∨ p = PLAYER_O) : switch_player (switch_player p) = p := by
  rcases hp with rfl | rfl <;> decide

lemma apply_moves_current (ms : List Int) : ∀ st : TState,
    st.current_player = PLAYER_X ∨ st.current_player = PLAYER_O →
    AllUndecided st ms →
    (apply_moves st ms).current_player =
      if ms.length % 2 = 0 then st.current_player else switch_player st.current_player := by
  induction ms with
  | nil =>
    intro st _ _
    simp [apply_moves]
  | cons n ms ih =>
    intro st hst hall
    obtain ⟨hu, hrest⟩ := hall
    have hmm : (make_move st n).current_player = switch_player st.current_player :=
      make_move_current_undecided st n hu
    simp only [apply_moves]
    rw [ih (make_move st n) (by rw [hmm]; exact switch_player_mem _) hrest, hmm]
    by_cases hp : ms.length % 2 = 0
    · rw [if_pos hp, if_neg (by simp only [List.length_cons]; omega)]
    · rw [if_neg hp, if_pos (by simp only [List.length_cons]; omega),
        switch_player_switch_player st.current_player hst]

/-- Counterexample to claim C9: a deciding placement does not flip the
player.  After the legal run 1, 4, 2, 5 from a fresh board it is X to move
and 3 is available; X playing 3 completes row 1, and `current_player` stays
X — the `play` loop skips `switch_player` when `check_win` reports a
result, so the player does not flip exactly once per completed placement. -/
theorem deciding_placement_does_not_flip :
    (3 : Int) ∈ (apply_moves reset_game [1, 4, 2, 5]).available_moves ∧
    (apply_moves reset_game [1, 4, 2, 5]).current_player = PLAYER_X ∧
    (make_move (apply_moves reset_game [1, 4, 2, 5]) 3).current_player = PLAYER_X ∧
    switch_player PLAYER_X ≠ PLAYER_X := by
  decide

/-- Claim C9 (amended): `switch_player` is an involution on {X, O}; the
current player is always one of {X, O} on reachable states; a completed
placement flips the current player exactly once when it leaves the game
undecided, while a deciding placement (win or tie) skips the switch and
leaves the current player unchanged; the mark a placement writes is the
mark of the mover; and after k placements of a run whose placements all
leave the game undecided — as every placement before the last one of a
game does — the player to move is X for even k and O for odd k, so the
marks placed in a game alternate X, O, X, O, …. -/
theorem switch_player_involution_alternation :
    (∀ p, (p = PLAYER_X ∨ p = PLAYER_O) → switch_player (switch_player p) = p) ∧
    (∀ (st : TState) (n : Int),
      check_win (place st n).board (place st n).available_moves = none →
      (make_move st n).current_player = switch_player st.current_player) ∧
    (∀ (st : TState) (n : Int),
      check_win (place st n).board (place st n).available_moves ≠ none →
      (make_move st n).current_player = st.current_player) ∧
    (∀ (st : TState) (n : Int),
      (place st n).board ((n - 1) / 3).toNat ((n - 1) % 3).toNat = st.current_player) ∧
    (∀ st, Reachable st → st.current_player = PLAYER_X ∨ st.current_player = PLAYER_O) ∧
    (∀ ms : List Int, AllUndecided reset_game ms →
      (apply_moves reset_game ms).current_player =
        if ms.length % 2 = 0 then PLAYER_X else PLAYER_O) := by
  refine ⟨switch_player_switch_player, make_move_current_undecided,
    make_move_current_decided, ?_, reachable_current_mem, ?_⟩
  · intro st n
    simp [place, setCell]
  · intro ms hall
    rw [apply_moves_current ms reset_game (Or.inl rfl) hall]
    split_ifs <;> decide

/-- Witness for the amended claim C9: the involution applied at the mark X,
and the alternation on the concrete undecided run 1, 4 — after it, it is X
to move again. -/
theorem switch_player_involution_alternation_witness :
    switch_player (switch_player PLAYER_X) = PLAYER_X ∧
    (apply_moves reset_game [1, 4]).current_player = PLAYER_X :=
  ⟨switch_player_involution_alternation.1 PLAYER_X (Or.inl rfl),
   (switch_player_involution_alternation.2.2.2.2.2 [1, 4]
     ⟨by decide, by decide, trivial⟩).trans (by decide)⟩

/-! ### check_win on reachable boards (claim C10) -/

lemma cell_mark_of_eq (x y a c : String) (hx : x = PLAYER_X ∨ x = PLAYER_O ∨ x = a)
    (hy : y = PLAYER_X ∨ y = PLAYER_O ∨ y = c) (hxy : x = y) (hac : a ≠ c) :
    x = PLAYER_X ∨ x = PLAYER_O := by
  rcases hy with h | h | h
  · exact Or.inl (hxy.trans h)
  · exact Or.inr (hxy.trans h)
  · rcases hx with h2 | h2 | h2
    · exact Or.inl h2
    · exact Or.inr h2
    · exact absurd (h2.symm.trans (hxy.trans h)) hac

lemma cellInv_check_win (st : TState) (h : CellInv st) :
    check_win st.board st.available_moves = none ∨
    check_win st.board st.available_moves = some PLAYER_X ∨
    check_win st.board st.available_moves = some PLAYER_O ∨
    check_win st.board st.available_moves = some TIE_RESULT := by
  have h00 := h 0 0 (by omega) (by omega)
  have h01 := h 0 1 (by omega) (by omega)
  have h02 := h 0 2 (by omega) (by omega)
  have h10 := h 1 0 (by omega) (by omega)
  have h11 := h 1 1 (by omega) (by omega)
  have h12 := h 1 2 (by omega) (by omega)
  have h20 := h 2 0 (by omega) (by omega)
  have h21 := h 2 1 (by omega) (by omega)
  unfold check_win
  split_ifs with h1 h2 h3 h4 h5 h6 h7 h8 h9
  · rcases cell_mark_of_eq _ _ _ _ h00 h01 h1.1 (by decide) with hm | hm <;> simp [hm]
  · rcases cell_mark_of_eq _ _ _ _ h10 h11 h2.1 (by decide) with hm | hm <;> simp [hm]
  · rcases cell_mark_of_eq _ _ _ _ h20 h21 h3.1 (by decide) with hm | hm <;> simp [hm]
  · rcases cell_mark_of_eq _ _ _ _ h00 h10 h4.1 (by decide) with hm | hm <;> simp [hm]
  · rcases cell_mark_of_eq _ _ _ _ h01 h11 h5.1 (by decide) with hm | hm <;> simp [hm]
  · rcases cell_mark_of_eq _ _ _ _ h02 h12 h6.1 (by decide) with hm | hm <;> simp [hm]
  · rcases cell_mark_of_eq _ _ _ _ h00 h11 h7.1 (by decide) with hm | hm <;> simp [hm]
  · rcases cell_mark_of_eq _ _ _ _ h02 h11 h8.1 (by decide) with hm | hm <;> simp [hm]
  · exact Or.inr (Or.inr (Or.inr rfl))
  · exact Or.inl rfl

lemma cellInv_make_move (st : TState) (n : Int) (h : CellInv st)
    (hcur : st.current_player = PLAYER_X ∨ st.current_player = PLAYER_O) :
    CellInv (make_move st n) := by
  intro i j hi hj
  have hb : (make_move st n).board
      = setCell st.board ((n - 1) / 3).toNat ((n - 1) % 3).toNat st.current_player :=
    make_move_board st n
  rw [hb]
  unfold setCell
  split_ifs with hij
  · rcases hcur with h2 | h2
    · exact Or.inl h2
    · exact Or.inr (Or.inl h2)
  · exact h i j hi hj

lemma reachable_cellInv (st : TState) (h : Reachable st) : CellInv st := by
  induction h with
  | refl => intro i j hi hj; exact Or.inr (Or.inr rfl)
  | tail hsteps hstep ih =>
    obtain ⟨n, hn, rfl⟩ := hstep
    exact cellInv_make_move _ n ih (reachable_current_mem _ hsteps)

/-- Claim C10: on every board reachable from a fresh board by legal
placements, `check_win` never reports the position label of an unoccupied cell —
its result is always undecided (`none`), X, O, or tie: every reachable cell
is a mark or its own label, and the labels of any two cells of a line are
distinct, so three equal cells can only be marks. -/
theorem check_win_result_range (st : TState) (h : Reachable st) :
    check_win st.board st.available_moves = none ∨
    check_win st.board st.available_moves = some PLAYER_X ∨
    check_win st.board st.available_moves = some PLAYER_O ∨
    check_win st.board st.available_moves = some TIE_RESULT :=
  cellInv_check_win st (reachable_cellInv st h)

/-- Witness for claim C10 at the fresh board, reachable by the empty run. -/
theorem check_win_result_range_witness :
    check_win reset_game.board reset_game.available_moves = none ∨
    check_win reset_game.board reset_game.available_moves = some PLAYER_X ∨
    check_win reset_game.board reset_game.available_moves = some PLAYER_O ∨
    check_win reset_game.board reset_game.available_moves = some TIE_RESULT :=
  check_win_result_range reset_game Relation.ReflTransGen.refl

/-! ### check_win against the rule of the spec (claim C1) -/

lemma find_first_unique {α : Type} (p : α → Bool) (l : List α) (x : α)
    (hx : x ∈ l) (hpx : p x = true) (hothers : ∀ y ∈ l, y ≠ x → p y = false) :
    l.find? p = some x := by
  induction l with
  | nil => cases hx
  | cons a l ih =>
    by_cases hax : a = x
    · subst hax
      exact List.find?_cons_of_pos _ hpx
    · have hpa : p a = false := hothers a (List.mem_cons_self a l) hax
      rw [List.find?_cons_of_neg _ (by simp [hpa])]
      refine ih ?_ ?_
      · rcases List.mem_cons.1 hx with h | h
        · exact absurd h.symm hax
        · exact h
      · exact fun y hy hyx => hothers y (List.mem_cons_of_mem a hy) hyx

lemma check_win_eq_spec (b : Nat → Nat → String) (avail : List Int) :
    check_win b avail = check_win_spec b avail := by
  unfold check_win check_win_spec linesList
  split_ifs with h1 h2 h3 h4 h5 h6 h7 h8 h9 <;>
    simp_all [List.find?_cons, lineDone, lineVal, Bool.and_eq_true, beq_iff_eq]

/-- Claim C1: `check_win` implements the rule of the spec exactly — it returns
the value of the first complete line in the fixed order rows, columns,
diagonals, else tie exactly when `availableMoves` is empty, else undecided;
in particular, for each of the 8 line configurations, a board where one
mark fills that line and no other line is complete evaluates to that mark,
and with no complete line the result is tie when no moves remain and
undecided otherwise. -/
theorem evaluate_matches_spec :
    (∀ (b : Nat → Nat → String) (avail : List Int),
      check_win b avail = check_win_spec b avail) ∧
    (∀ (b : Nat → Nat → String) (avail : List Int) (m : String) (l : List (Nat × Nat)),
      l ∈ linesList →
      (∀ p ∈ l, b p.1 p.2 = m) →
      (∀ lx ∈ linesList, lx ≠ l → lineDone b lx = false) →
      check_win b avail = some m) ∧
    (∀ (b : Nat → Nat → String) (avail : List Int),
      (∀ lx ∈ linesList, lineDone b lx = false) →
      (avail = [] → check_win b avail = some TIE_RESULT) ∧
      (avail ≠ [] → check_win b avail = none)) := by
  refine ⟨check_win_eq_spec, ?_, ?_⟩
  · intro b avail m l hl hm hothers
    have hdone : lineDone b l = true := by
      fin_cases hl <;> simp_all [lineDone, beq_iff_eq]
    have hval : lineVal b l = m := by
      fin_cases hl <;> simp_all [lineVal]
    rw [check_win_eq_spec]
    unfold check_win_spec
    rw [find_first_unique (lineDone b) linesList l hl hdone hothers]
    exact congrArg some hval
  · intro b avail hnone
    have hfind : linesList.find? (lineDone b) = none :=
      List.find?_eq_none.mpr (fun x hx => by simp [hnone x hx])
    constructor <;> intro ha <;> rw [check_win_eq_spec] <;> unfold check_win_spec <;>
      rw [hfind] <;> simp [ha]

/-- Witness for claim C1: a board whose top row is filled with X and whose
other cells keep their labels evaluates to X. -/
theorem evaluate_matches_spec_witness :
    check_win (fun i j => if i = 0 then PLAYER_X else create_board i j) [5]
      = some PLAYER_X :=
  evaluate_matches_spec.2.1 _ [5] PLAYER_X [(0, 0), (0, 1), (0, 2)]
    (by decide) (by decide) (by decide)
